import Mathlib

/-!
# LectureLens — flashcard review scheduling and flashcard generation

A shallow embedding of the spaced-repetition review scheduler specified for
this repository, of the card-creation defaults from the database migrations,
and of the `generateFlashcards` helper of the `process-slides` edge function.

The repository stores flashcards in the `flashcards` / `tutor_flashcards`
tables (columns `review_count`, `last_reviewed`, `next_review`, ...), but
contains no scheduling computation; the scheduler (`scheduleNextReview`,
`isDue`, `selectDueCards`) is therefore modelled directly from the
specification's algorithm (SM-2 derived).  Real numbers of the specification
are modelled exactly by rationals (every quantity involved is a finite decimal),
timestamps by integer seconds, and `round` is round-half-up, matching both the
mathematical convention of the specification and JavaScript `Math.round`.
-/

namespace LectureLens

/-- A flashcard's review state.  Maps to a `flashcards` / `tutor_flashcards`
row: `id` is the opaque identifier (modelled as a natural number, giving the
total order used for deterministic tie-breaking), `question`/`answer` are
opaque content, and the four scheduling fields follow the data model:
`easiness_factor` (floating-point, modelled exactly as a rational),
`repetition_count` and `interval_days` (integer columns), `last_reviewed_at`
(nullable timestamp) and `next_review_at` (timestamp), timestamps in integer
seconds. -/
structure ReviewCard where
  id : Nat
  question : String
  answer : String
  easiness_factor : ℚ
  repetition_count : ℤ
  interval_days : ℤ
  last_reviewed_at : Option ℤ
  next_review_at : ℤ
  deriving Repr, DecidableEq

/-- The scheduler's error taxonomy: `invalidGrade` for a grade outside
`[0,5]`, `invalidState` for a card whose persisted scheduling fields violate
the invariants on entry. -/
inductive ScheduleError where
  | invalidGrade : ScheduleError
  | invalidState : ScheduleError
  deriving Repr, DecidableEq

/-- One day, in the seconds used for timestamps. -/
def secondsPerDay : ℤ := 86400

/-- Modelled from the spec: step 1 of `scheduleNextReview`.
`ef' = ef + (0.1 - (5 - grade) * (0.08 + (5 - grade) * 0.02))`, then clamp
`ef' = max(ef', 1.3)`. -/
def updatedEF (ef : ℚ) (grade : ℤ) : ℚ :=
  max (ef + (1/10 - (5 - (grade : ℚ)) * (8/100 + (5 - (grade : ℚ)) * (2/100)))) (13/10)

/-- Modelled from the spec: step 2 of `scheduleNextReview`, repetition count.
Fail (`grade < 3`) resets to 0; pass increments. -/
def nextRepetition (rep : ℤ) (grade : ℤ) : ℤ :=
  if grade < 3 then 0 else rep + 1

/-- Modelled from the spec: step 2 of `scheduleNextReview`, interval.
Fail: 1 day.  Pass: 1 day at `repetition_count' = 1`, 6 days at
`repetition_count' = 2`, otherwise `round(interval_days * ef')`. -/
def nextInterval (grade : ℤ) (rep' : ℤ) (intervalDays : ℤ) (ef' : ℚ) : ℤ :=
  if grade < 3 then 1
  else if rep' = 1 then 1
  else if rep' = 2 then 6
  else round ((intervalDays : ℚ) * ef')

/-- Modelled from the spec: `scheduleNextReview(card, grade, now)`.  The
repository's schema has the scheduling columns but no scheduling computation,
so this is the specification's SM-2-derived algorithm: validate the grade
(`InvalidGradeError` outside `[0,5]`) and the card's entry invariants
(`InvalidStateError` if `easiness_factor < 1.3` or `repetition_count < 0`),
update the easiness factor, branch on pass/fail for repetition count and
interval, stamp `last_reviewed_at' = now` and
`next_review_at' = now + interval_days' days`, and carry every other field
over unchanged. -/
def scheduleNextReview (card : ReviewCard) (grade : ℤ) (now : ℤ) :
    Except ScheduleError ReviewCard :=
  if grade < 0 ∨ 5 < grade then .error .invalidGrade
  else if card.easiness_factor < 13/10 ∨ card.repetition_count < 0 then .error .invalidState
  else
    let ef' := updatedEF card.easiness_factor grade
    let rep' := nextRepetition card.repetition_count grade
    let int' := nextInterval grade rep' card.interval_days ef'
    .ok { card with
      easiness_factor := ef'
      repetition_count := rep'
      interval_days := int'
      last_reviewed_at := some now
      next_review_at := now + int' * secondsPerDay }

/-- Fold of `scheduleNextReview` over a sequence of `(grade, now)` review
events, propagating the first failure. -/
def applyReviews (card : ReviewCard) : List (ℤ × ℤ) → Except ScheduleError ReviewCard
  | [] => .ok card
  | (g, t) :: rest =>
    match scheduleNextReview card g t with
    | .ok c' => applyReviews c' rest
    | .error e => .error e

/-- Modelled from the spec: `isDue(card, now)` returns
`next_review_at(card) <= now`. -/
def isDue (card : ReviewCard) (now : ℤ) : Bool :=
  card.next_review_at ≤ now

/-- The selection order of `selectDueCards`: ascending `next_review_at`,
ties broken by `id`. -/
def cardLE (a b : ReviewCard) : Prop :=
  a.next_review_at < b.next_review_at ∨
    (a.next_review_at = b.next_review_at ∧ a.id ≤ b.id)

instance : DecidableRel cardLE := fun a b => by
  unfold cardLE; infer_instance

instance : IsTotal ReviewCard cardLE where
  total a b := by
    unfold cardLE
    rcases lt_trichotomy a.next_review_at b.next_review_at with h | h | h
    · exact Or.inl (Or.inl h)
    · rcases Nat.le_total a.id b.id with h' | h'
      · exact Or.inl (Or.inr ⟨h, h'⟩)
      · exact Or.inr (Or.inr ⟨h.symm, h'⟩)
    · exact Or.inr (Or.inl h)

instance : IsTrans ReviewCard cardLE where
  trans a b c hab hbc := by
    unfold cardLE at *
    rcases hab with h₁ | ⟨h₁, h₁'⟩ <;> rcases hbc with h₂ | ⟨h₂, h₂'⟩
    · exact Or.inl (h₁.trans h₂)
    · exact Or.inl (h₂ ▸ h₁)
    · exact Or.inl (h₁ ▸ h₂)
    · exact Or.inr ⟨h₁.trans h₂, h₁'.trans h₂'⟩

/-- Modelled from the spec: `selectDueCards(cards, now, limit)` filters to the
due cards, sorts ascending by `next_review_at` (ties by `id`), and truncates
to `limit` when one is provided. -/
def selectDueCards (cards : List ReviewCard) (now : ℤ) (limit : Option ℕ) :
    List ReviewCard :=
  let sorted := (cards.filter (fun c => isDue c now)).insertionSort cardLE
  match limit with
  | some n => sorted.take n
  | none => sorted

/-- Modelled from the spec: store-side card creation.  The migrations give the
`flashcards` / `tutor_flashcards` columns the defaults `review_count = 0`,
`next_review = now()` and a null `last_reviewed`; the schema has no
`easiness_factor` or `interval_days` column, so those take the
specification's initial values `2.5` and `0`. -/
def createCard (id : Nat) (question answer : String) (now : ℤ) : ReviewCard :=
  { id := id
    question := question
    answer := answer
    easiness_factor := 5/2
    repetition_count := 0
    interval_days := 0
    last_reviewed_at := none
    next_review_at := now }

/-! ## The `process-slides` flashcard generator

Embedding of `generateFlashcards` from
`supabase/functions/process-slides/index.ts`.  `content.split(/[.!?]+/)`
splits at each maximal run of `.`/`!`/`?`; `trim()` strips surrounding
whitespace; strings are modelled at the level of their character lists. -/

/-- A character matched by the source's sentence-splitting regex `[.!?]+`. -/
def isSentenceSep (c : Char) : Bool :=
  c = '.' || c = '!' || c = '?'

/-- Core of JavaScript `String.split` on the regex `[.!?]+`: accumulate the
current piece (reversed) and a flag recording whether the previous character
belonged to a separator run. -/
def splitSentencesCore : List Char → List Char → Bool → List (List Char)
  | [], cur, _ => [cur.reverse]
  | c :: cs, cur, inSep =>
    if isSentenceSep c then
      if inSep then splitSentencesCore cs cur true
      else cur.reverse :: splitSentencesCore cs [] true
    else splitSentencesCore cs (c :: cur) false

/-- JavaScript `content.split(/[.!?]+/)`. -/
def splitSentences (s : String) : List String :=
  (splitSentencesCore s.data [] false).map fun l => String.mk l

/-- Whitespace stripped by JavaScript `String.trim` (ASCII part; the
sentences handled here contain at most these). -/
def isJsSpace (c : Char) : Bool :=
  c = ' ' || c = '\t' || c = '\n' || c = '\x0d' || c = '\x0b' || c = '\x0c'

/-- JavaScript `String.trim`. -/
def jsTrim (s : String) : String :=
  String.mk (((s.data.dropWhile isJsSpace).reverse.dropWhile isJsSpace).reverse)

/-- The sentence list `generateFlashcards` works from:
`content.split(/[.!?]+/).filter((s) => s.trim().length > 20)`. -/
def contentSentences (content : String) : List String :=
  (splitSentences content).filter fun s => 20 < (jsTrim s).length

/-- A record pushed by `generateFlashcards`, destined for the `flashcards`
table. -/
structure FlashcardRec where
  lecture_id : String
  question : String
  answer : String
  difficulty : String
  is_auto_generated : Bool
  deriving Repr, DecidableEq

/-- The question template of `generateFlashcards`. -/
def flashcardQuestion (sentence : String) : String :=
  "What does this statement mean: \"" ++ sentence ++ "\"?"

/-- `generateFlashcards(content, lectureId)` from
`supabase/functions/process-slides/index.ts`: filter the split sentences to
those whose trimmed length exceeds 20, then loop
`for (i = 0; i < min(10, sentences.length); i += 2)` pushing a record from
`sentences[i]` / `sentences[i+1]` whenever `i + 1 < sentences.length`. -/
def generateFlashcards (content : String) (lectureId : String) :
    List FlashcardRec :=
  let sentences := contentSentences content
  ((List.range (min 10 sentences.length)).filter fun i => i % 2 = 0).filterMap
    fun i =>
      if i + 1 < sentences.length then
        some { lecture_id := lectureId
               question := flashcardQuestion (jsTrim (sentences.getD i ""))
               answer := jsTrim (sentences.getD (i + 1) "")
               difficulty := "medium"
               is_auto_generated := true }
      else none

/-- The state of a fresh card after one grade-5 review at time 0 (spec
scenario 1). -/
def newCardReviewed : ReviewCard :=
  { id := 0
    question := "q"
    answer := "a"
    easiness_factor := 13/5
    repetition_count := 1
    interval_days := 1
    last_reviewed_at := some 0
    next_review_at := 86400 }

/-- A card two successful reviews in (`rep = 2, interval = 6, ef = 2.5`),
as in spec scenario 3. -/
def growthCard : ReviewCard :=
  { id := 1
    question := "g"
    answer := "h"
    easiness_factor := 5/2
    repetition_count := 2
    interval_days := 6
    last_reviewed_at := some 0
    next_review_at := 0 }

/-- `growthCard` after a grade-5 review at time 0:
`interval' = round(6 * 2.6) = 16`. -/
def growthCardReviewed : ReviewCard :=
  { id := 1
    question := "g"
    answer := "h"
    easiness_factor := 13/5
    repetition_count := 3
    interval_days := 16
    last_reviewed_at := some 0
    next_review_at := 16 * 86400 }

/-! ## Helper lemmas -/

/-- On valid inputs `scheduleNextReview` succeeds, with the four scheduling
fields given by `updatedEF`, `nextRepetition` and `nextInterval`. -/
lemma schedule_ok (card : ReviewCard) (grade now : ℤ)
    (hg₀ : 0 ≤ grade) (hg₅ : grade ≤ 5)
    (hef : 13/10 ≤ card.easiness_factor) (hrep : 0 ≤ card.repetition_count) :
    scheduleNextReview card grade now = .ok
      { card with
        easiness_factor := updatedEF card.easiness_factor grade
        repetition_count := nextRepetition card.repetition_count grade
        interval_days := nextInterval grade (nextRepetition card.repetition_count grade)
          card.interval_days (updatedEF card.easiness_factor grade)
        last_reviewed_at := some now
        next_review_at := now + nextInterval grade (nextRepetition card.repetition_count grade)
          card.interval_days (updatedEF card.easiness_factor grade) * secondsPerDay } := by
  unfold scheduleNextReview
  rw [if_neg (by push_neg; exact ⟨hg₀, hg₅⟩), if_neg (by push_neg; exact ⟨hef, hrep⟩)]

/-- A successful call determines the output card. -/
lemma schedule_ok_elim {card : ReviewCard} {grade now : ℤ} {c' : ReviewCard}
    (hg₀ : 0 ≤ grade) (hg₅ : grade ≤ 5)
    (hef : 13/10 ≤ card.easiness_factor) (hrep : 0 ≤ card.repetition_count)
    (h : scheduleNextReview card grade now = .ok c') :
    c' = { card with
        easiness_factor := updatedEF card.easiness_factor grade
        repetition_count := nextRepetition card.repetition_count grade
        interval_days := nextInterval grade (nextRepetition card.repetition_count grade)
          card.interval_days (updatedEF card.easiness_factor grade)
        last_reviewed_at := some now
        next_review_at := now + nextInterval grade (nextRepetition card.repetition_count grade)
          card.interval_days (updatedEF card.easiness_factor grade) * secondsPerDay } := by
  rw [schedule_ok card grade now hg₀ hg₅ hef hrep] at h
  exact (Except.ok.inj h).symm

/-- Every successful call returns a card back inside the invariant
`easiness_factor ≥ 1.3 ∧ repetition_count ≥ 0`. -/
lemma schedule_ok_inv {card : ReviewCard} {grade now : ℤ} {c' : ReviewCard}
    (h : scheduleNextReview card grade now = .ok c') :
    13/10 ≤ c'.easiness_factor ∧ 0 ≤ c'.repetition_count := by
  unfold scheduleNextReview at h
  split at h
  · cases h
  split at h
  · cases h
  rename_i hval
  push_neg at hval
  cases h
  refine ⟨le_max_right _ _, ?_⟩
  show 0 ≤ nextRepetition card.repetition_count grade
  unfold nextRepetition
  split
  · exact le_refl 0
  · linarith [hval.2]

/-- The easiness floor survives any sequence of successful reviews. -/
lemma applyReviews_floor :
    ∀ (reviews : List (ℤ × ℤ)) (card c' : ReviewCard),
      13/10 ≤ card.easiness_factor →
      applyReviews card reviews = .ok c' → 13/10 ≤ c'.easiness_factor := by
  intro reviews
  induction reviews with
  | nil =>
    intro card c' hef h
    cases h
    exact hef
  | cons gt rest ih =>
    intro card c' hef h
    obtain ⟨g, t⟩ := gt
    unfold applyReviews at h
    cases hs : scheduleNextReview card g t with
    | ok c₁ =>
      rw [hs] at h
      exact ih c₁ c' (schedule_ok_inv hs).1 h
    | error e =>
      rw [hs] at h
      cases h

/-- `round` (round half up, as `Math.round`) sends anything at least `1/2`
to a positive integer. -/
lemma one_le_round {q : ℚ} (h : 1/2 ≤ q) : 1 ≤ round q := by
  rw [round_eq, Int.le_floor]
  push_cast
  linarith

/-! ## Claims -/

/-- C1.  For every well-formed card (`easiness_factor ≥ 1.3`,
`repetition_count ≥ 0`), every grade in `[0,5]` and every `now`, the card
returned by `scheduleNextReview` has `easiness_factor ≥ 1.3`; and over any
sequence of reviews starting from such a card the easiness factor never
drops below the 1.3 floor. -/
theorem review_easiness_floor
    (card : ReviewCard) (grade now : ℤ) (reviews : List (ℤ × ℤ)) (c₁ c₂ : ReviewCard)
    (hef : 13/10 ≤ card.easiness_factor) (hrep : 0 ≤ card.repetition_count)
    (hg₀ : 0 ≤ grade) (hg₅ : grade ≤ 5)
    (h₁ : scheduleNextReview card grade now = .ok c₁)
    (h₂ : applyReviews card reviews = .ok c₂) :
    13/10 ≤ c₁.easiness_factor ∧ 13/10 ≤ c₂.easiness_factor :=
  ⟨(schedule_ok_inv h₁).1, applyReviews_floor reviews card c₂ hef h₂⟩

/-- C3.  `scheduleNextReview` computes the updated easiness factor as
`ef' = max(ef + (0.1 - (5 - grade) * (0.08 + (5 - grade) * 0.02)), 1.3)`;
in particular a card with `ef = 2.5` graded 5 comes back with `ef' = 2.6`. -/
theorem review_easiness_formula
    (card : ReviewCard) (grade now : ℤ) (c' : ReviewCard)
    (hef : 13/10 ≤ card.easiness_factor) (hrep : 0 ≤ card.repetition_count)
    (hg₀ : 0 ≤ grade) (hg₅ : grade ≤ 5)
    (h : scheduleNextReview card grade now = .ok c') :
    c'.easiness_factor =
      max (card.easiness_factor +
        (1/10 - (5 - (grade : ℚ)) * (8/100 + (5 - (grade : ℚ)) * (2/100)))) (13/10) ∧
    (card.easiness_factor = 5/2 → grade = 5 → c'.easiness_factor = 13/5) := by
  have hc := schedule_ok_elim hg₀ hg₅ hef hrep h
  subst hc
  constructor
  · rfl
  · intro h25 h5
    show updatedEF card.easiness_factor grade = 13/5
    rw [h25, h5]
    unfold updatedEF
    norm_num

/-- C2.  The pass/fail branch structure of `scheduleNextReview`: a failing
grade (`< 3`) resets `repetition_count` to 0 and the interval to 1 day; a
passing grade increments `repetition_count`, with interval 1 day at
`repetition_count' = 1`, 6 days at `repetition_count' = 2`, and
`round(interval_days * ef')` otherwise. -/
theorem review_state_transition
    (card : ReviewCard) (grade now : ℤ) (c' : ReviewCard)
    (hef : 13/10 ≤ card.easiness_factor) (hrep : 0 ≤ card.repetition_count)
    (hg₀ : 0 ≤ grade) (hg₅ : grade ≤ 5)
    (h : scheduleNextReview card grade now = .ok c') :
    (grade < 3 → c'.repetition_count = 0 ∧ c'.interval_days = 1) ∧
    (3 ≤ grade →
      c'.repetition_count = card.repetition_count + 1 ∧
      (c'.repetition_count = 1 → c'.interval_days = 1) ∧
      (c'.repetition_count = 2 → c'.interval_days = 6) ∧
      (c'.repetition_count ≠ 1 → c'.repetition_count ≠ 2 →
        c'.interval_days = round ((card.interval_days : ℚ) * c'.easiness_factor))) := by
  have hc := schedule_ok_elim hg₀ hg₅ hef hrep h
  subst hc
  constructor
  · intro h3
    constructor
    · show nextRepetition card.repetition_count grade = 0
      unfold nextRepetition
      rw [if_pos h3]
    · show nextInterval grade (nextRepetition card.repetition_count grade)
        card.interval_days (updatedEF card.easiness_factor grade) = 1
      unfold nextInterval
      rw [if_pos h3]
  · intro h3
    have hlt : ¬ grade < 3 := not_lt.mpr h3
    have hrepEq : nextRepetition card.repetition_count grade = card.repetition_count + 1 := by
      unfold nextRepetition
      rw [if_neg hlt]
    refine ⟨hrepEq, ?_, ?_, ?_⟩
    · intro h1
      have h1' : nextRepetition card.repetition_count grade = 1 := h1
      show nextInterval grade (nextRepetition card.repetition_count grade)
        card.interval_days (updatedEF card.easiness_factor grade) = 1
      unfold nextInterval
      rw [if_neg hlt, if_pos h1']
    · intro h2
      have h2' : nextRepetition card.repetition_count grade = 2 := h2
      have h1' : nextRepetition card.repetition_count grade ≠ 1 := by
        rw [h2']
        norm_num
      show nextInterval grade (nextRepetition card.repetition_count grade)
        card.interval_days (updatedEF card.easiness_factor grade) = 6
      unfold nextInterval
      rw [if_neg hlt, if_neg h1', if_pos h2']
    · intro h1 h2
      have h1' : nextRepetition card.repetition_count grade ≠ 1 := h1
      have h2' : nextRepetition card.repetition_count grade ≠ 2 := h2
      show nextInterval grade (nextRepetition card.repetition_count grade)
        card.interval_days (updatedEF card.easiness_factor grade) =
        round ((card.interval_days : ℚ) * updatedEF card.easiness_factor grade)
      unfold nextInterval
      rw [if_neg hlt, if_neg h1', if_neg h2']

/-- C8.  `scheduleNextReview` stamps `last_reviewed_at' = now` and
`next_review_at' = now + interval_days'` days, and carries `id`, `question`
and `answer` over from the input card unchanged. -/
theorem review_frame
    (card : ReviewCard) (grade now : ℤ) (c' : ReviewCard)
    (hef : 13/10 ≤ card.easiness_factor) (hrep : 0 ≤ card.repetition_count)
    (hg₀ : 0 ≤ grade) (hg₅ : grade ≤ 5)
    (h : scheduleNextReview card grade now = .ok c') :
    c'.last_reviewed_at = some now ∧
    c'.next_review_at = now + c'.interval_days * secondsPerDay ∧
    c'.id = card.id ∧ c'.question = card.question ∧ c'.answer = card.answer := by
  have hc := schedule_ok_elim hg₀ hg₅ hef hrep h
  subst hc
  exact ⟨rfl, rfl, rfl, rfl, rfl⟩

/-- C6 (amended).  For a well-formed card that additionally has
`interval_days ≥ 1` or `repetition_count ≤ 1`, every review stamps
`last_reviewed_at' = now` and yields `interval_days' ≥ 1`, so
`next_review_at' > last_reviewed_at'`.  (The extra hypothesis rules out the
ill-formed-but-unreachable states with `repetition_count ≥ 2` and
`interval_days = 0`, where `round(interval_days * ef') = 0`.) -/
theorem review_due_advances
    (card : ReviewCard) (grade now : ℤ) (c' : ReviewCard)
    (hef : 13/10 ≤ card.easiness_factor) (hrep : 0 ≤ card.repetition_count)
    (hg₀ : 0 ≤ grade) (hg₅ : grade ≤ 5)
    (hgood : 1 ≤ card.interval_days ∨ card.repetition_count ≤ 1)
    (h : scheduleNextReview card grade now = .ok c') :
    c'.last_reviewed_at = some now ∧ 1 ≤ c'.interval_days ∧ now < c'.next_review_at := by
  have hc := schedule_ok_elim hg₀ hg₅ hef hrep h
  subst hc
  have hef' : 13/10 ≤ updatedEF card.easiness_factor grade := le_max_right _ _
  have hint : 1 ≤ nextInterval grade (nextRepetition card.repetition_count grade)
      card.interval_days (updatedEF card.easiness_factor grade) := by
    unfold nextInterval
    split_ifs with hfail h1 h2
    · norm_num
    · norm_num
    · norm_num
    · have hrep' : nextRepetition card.repetition_count grade = card.repetition_count + 1 := by
        unfold nextRepetition
        rw [if_neg hfail]
      have hI : 1 ≤ card.interval_days := by
        rcases hgood with hI | hle
        · exact hI
        · exfalso
          rw [hrep'] at h1 h2
          omega
      have hIQ : (1 : ℚ) ≤ (card.interval_days : ℚ) := by exact_mod_cast hI
      have key : (card.interval_days : ℚ) * (13/10) ≤
          (card.interval_days : ℚ) * updatedEF card.easiness_factor grade :=
        mul_le_mul_of_nonneg_left hef' (by linarith)
      exact one_le_round (by nlinarith)
  refine ⟨rfl, hint, ?_⟩
  show now < now + nextInterval grade (nextRepetition card.repetition_count grade)
      card.interval_days (updatedEF card.easiness_factor grade) * secondsPerDay
  have h86 : (86400 : ℤ) ≤ nextInterval grade (nextRepetition card.repetition_count grade)
      card.interval_days (updatedEF card.easiness_factor grade) * 86400 := by
    have := mul_le_mul_of_nonneg_right hint (by norm_num : (0 : ℤ) ≤ 86400)
    simpa using this
  unfold secondsPerDay
  linarith

/-- C6, counterexample.  A card with `easiness_factor = 2.5`,
`repetition_count = 2` and `interval_days = 0` is well-formed in the claim's
sense, yet grading it 3 at `now = 0` returns `next_review_at' = 0` and
`last_reviewed_at' = some 0`: the due date does not advance
(`round(0 * ef') = 0`). -/
theorem review_due_advances_cex :
    (scheduleNextReview
        { id := 0, question := "q", answer := "a", easiness_factor := 5/2,
          repetition_count := 2, interval_days := 0, last_reviewed_at := none,
          next_review_at := 0 } 3 0).map ReviewCard.next_review_at = .ok 0 ∧
    (scheduleNextReview
        { id := 0, question := "q", answer := "a", easiness_factor := 5/2,
          repetition_count := 2, interval_days := 0, last_reviewed_at := none,
          next_review_at := 0 } 3 0).map ReviewCard.last_reviewed_at = .ok (some 0) := by
  rw [schedule_ok _ 3 0 (by norm_num) (by norm_num) (by norm_num) (by norm_num)]
  constructor
  · simp [Except.map, nextInterval, nextRepetition, updatedEF, secondsPerDay]
  · simp [Except.map]

/-- C7 (amended).  For a well-formed card with `repetition_count ≥ 2` and a
passing grade (so the incremented count is ≥ 3), the new interval equals
`round(interval_days * ef')`, and it is strictly greater than the old
`interval_days` whenever `interval_days ≥ 2`.  (For `interval_days ≤ 1` the
rounded product can equal the old interval even though `ef' > 1`, so the
claim's condition `ef' > 1` is not sufficient.) -/
theorem review_interval_growth
    (card : ReviewCard) (grade now : ℤ) (c' : ReviewCard)
    (hef : 13/10 ≤ card.easiness_factor) (hrep : 0 ≤ card.repetition_count)
    (hg₃ : 3 ≤ grade) (hg₅ : grade ≤ 5)
    (hrep2 : 2 ≤ card.repetition_count)
    (h : scheduleNextReview card grade now = .ok c') :
    c'.interval_days = round ((card.interval_days : ℚ) * c'.easiness_factor) ∧
    (2 ≤ card.interval_days → card.interval_days < c'.interval_days) := by
  have hg₀ : 0 ≤ grade := by linarith
  have hc := schedule_ok_elim hg₀ hg₅ hef hrep h
  subst hc
  have hfail : ¬ grade < 3 := not_lt.mpr hg₃
  have hrep' : nextRepetition card.repetition_count grade = card.repetition_count + 1 := by
    unfold nextRepetition
    rw [if_neg hfail]
  have h1 : nextRepetition card.repetition_count grade ≠ 1 := by
    rw [hrep']
    omega
  have h2 : nextRepetition card.repetition_count grade ≠ 2 := by
    rw [hrep']
    omega
  have hintEq : nextInterval grade (nextRepetition card.repetition_count grade)
      card.interval_days (updatedEF card.easiness_factor grade)
      = round ((card.interval_days : ℚ) * updatedEF card.easiness_factor grade) := by
    unfold nextInterval
    rw [if_neg hfail, if_neg h1, if_neg h2]
  refine ⟨hintEq, ?_⟩
  intro hI2
  show card.interval_days < nextInterval grade (nextRepetition card.repetition_count grade)
      card.interval_days (updatedEF card.easiness_factor grade)
  rw [hintEq]
  have hef' : 13/10 ≤ updatedEF card.easiness_factor grade := le_max_right _ _
  have hIQ : (2 : ℚ) ≤ (card.interval_days : ℚ) := by exact_mod_cast hI2
  have key : (card.interval_days : ℚ) * (13/10) ≤
      (card.interval_days : ℚ) * updatedEF card.easiness_factor grade :=
    mul_le_mul_of_nonneg_left hef' (by linarith)
  rw [round_eq, Int.lt_iff_add_one_le, Int.le_floor]
  push_cast
  linarith

/-- C7, counterexample.  A card with `easiness_factor = 1.3`,
`repetition_count = 2` and `interval_days = 1`, graded 3 at `now = 0`:
the updated easiness factor is `1.3 > 1` (the unclamped value `1.16` is
raised to the floor), yet `interval_days' = round(1 * 1.3) = 1` is not
strictly greater than the old interval of 1. -/
theorem review_interval_growth_cex :
    (scheduleNextReview
        { id := 0, question := "q", answer := "a", easiness_factor := 13/10,
          repetition_count := 2, interval_days := 1, last_reviewed_at := none,
          next_review_at := 0 } 3 0).map ReviewCard.easiness_factor = .ok (13/10) ∧
    (1 : ℚ) < 13/10 ∧
    (scheduleNextReview
        { id := 0, question := "q", answer := "a", easiness_factor := 13/10,
          repetition_count := 2, interval_days := 1, last_reviewed_at := none,
          next_review_at := 0 } 3 0).map ReviewCard.interval_days = .ok 1 := by
  rw [schedule_ok _ 3 0 (by norm_num) (by norm_num) (by norm_num) (by norm_num)]
  refine ⟨?_, by norm_num, ?_⟩
  · simp [Except.map, updatedEF]
    norm_num
  · simp [Except.map, nextInterval, nextRepetition, updatedEF]
    norm_num [round_eq]

/-- Concrete evaluation: a fresh card graded 5 at time 0. -/
lemma eval_create_grade5 :
    scheduleNextReview (createCard 0 "q" "a" 0) 5 0 = .ok newCardReviewed := by
  rw [schedule_ok _ 5 0 (by norm_num) (by norm_num) (by norm_num [createCard])
    (by norm_num [createCard])]
  simp [createCard, newCardReviewed, nextInterval, nextRepetition, updatedEF,
    secondsPerDay]
  norm_num

/-- Concrete evaluation: one review applied as a (singleton) sequence. -/
lemma eval_apply_once :
    applyReviews (createCard 0 "q" "a" 0) [(5, 0)] = .ok newCardReviewed := by
  simp [applyReviews, eval_create_grade5]

/-- Concrete evaluation: `growthCard` graded 5 at time 0. -/
lemma eval_growth_grade5 :
    scheduleNextReview growthCard 5 0 = .ok growthCardReviewed := by
  rw [schedule_ok _ 5 0 (by norm_num) (by norm_num) (by norm_num [growthCard])
    (by norm_num [growthCard])]
  simp [growthCard, growthCardReviewed, nextInterval, nextRepetition, updatedEF,
    secondsPerDay]
  norm_num [round_eq]

/-- C1, witness: the floor holds after a single call and after the singleton
review sequence. -/
theorem review_easiness_floor_witness :
    13/10 ≤ newCardReviewed.easiness_factor ∧
    13/10 ≤ newCardReviewed.easiness_factor :=
  review_easiness_floor (createCard 0 "q" "a" 0) 5 0 [(5, 0)]
    newCardReviewed newCardReviewed
    (by norm_num [createCard]) (by norm_num [createCard]) (by norm_num)
    (by norm_num) eval_create_grade5 eval_apply_once

/-- C2, witness: grade 5 on a fresh card increments the repetition count and
gives a 1-day interval. -/
theorem review_state_transition_witness :
    newCardReviewed.repetition_count = (createCard 0 "q" "a" 0).repetition_count + 1 ∧
    newCardReviewed.interval_days = 1 := by
  have h := review_state_transition (createCard 0 "q" "a" 0) 5 0 newCardReviewed
    (by norm_num [createCard]) (by norm_num [createCard]) (by norm_num)
    (by norm_num) eval_create_grade5
  exact ⟨(h.2 (by norm_num)).1,
    (h.2 (by norm_num)).2.1 (by norm_num [newCardReviewed])⟩

/-- C3, witness: the formula at `ef = 2.5`, grade 5 gives `ef' = 2.6`. -/
theorem review_easiness_formula_witness :
    newCardReviewed.easiness_factor = 13/5 := by
  have h := review_easiness_formula (createCard 0 "q" "a" 0) 5 0 newCardReviewed
    (by norm_num [createCard]) (by norm_num [createCard]) (by norm_num)
    (by norm_num) eval_create_grade5
  exact h.2 (by norm_num [createCard]) rfl

/-- C6, witness: reviewing `growthCard` advances the due date past `now`. -/
theorem review_due_advances_witness :
    growthCardReviewed.last_reviewed_at = some 0 ∧
    1 ≤ growthCardReviewed.interval_days ∧
    0 < growthCardReviewed.next_review_at :=
  review_due_advances growthCard 5 0 growthCardReviewed
    (by norm_num [growthCard]) (by norm_num [growthCard]) (by norm_num)
    (by norm_num) (Or.inl (by norm_num [growthCard])) eval_growth_grade5

/-- C7, witness: `round(6 * 2.6) = 16 > 6` (spec scenario 3). -/
theorem review_interval_growth_witness :
    growthCardReviewed.interval_days =
      round ((growthCard.interval_days : ℚ) * growthCardReviewed.easiness_factor) ∧
    growthCard.interval_days < growthCardReviewed.interval_days := by
  have h := review_interval_growth growthCard 5 0 growthCardReviewed
    (by norm_num [growthCard]) (by norm_num [growthCard]) (by norm_num)
    (by norm_num) (by norm_num [growthCard]) eval_growth_grade5
  exact ⟨h.1, h.2 (by norm_num [growthCard])⟩

/-- C8, witness: the frame conditions after grading a fresh card. -/
theorem review_frame_witness :
    newCardReviewed.last_reviewed_at = some 0 ∧
    newCardReviewed.next_review_at =
      0 + newCardReviewed.interval_days * secondsPerDay ∧
    newCardReviewed.id = (createCard 0 "q" "a" 0).id ∧
    newCardReviewed.question = (createCard 0 "q" "a" 0).question ∧
    newCardReviewed.answer = (createCard 0 "q" "a" 0).answer :=
  review_frame (createCard 0 "q" "a" 0) 5 0 newCardReviewed
    (by norm_num [createCard]) (by norm_num [createCard]) (by norm_num)
    (by norm_num) eval_create_grade5

/-- C4 (amended).  `scheduleNextReview` fails with `InvalidGradeError` iff
the grade is outside `[0,5]`; when the grade is in range it fails with
`InvalidStateError` iff `easiness_factor < 1.3` or `repetition_count < 0`
on entry; and it returns a result exactly when the grade is in range and
the card is well-formed.  (Grade validation takes priority: on an input
that violates both constraints the error is `InvalidGradeError`, so the
claim's unconditional `InvalidStateError` iff does not hold.) -/
theorem review_validation (card : ReviewCard) (grade now : ℤ) :
    (scheduleNextReview card grade now = .error .invalidGrade ↔
      (grade < 0 ∨ 5 < grade)) ∧
    (scheduleNextReview card grade now = .error .invalidState ↔
      (0 ≤ grade ∧ grade ≤ 5 ∧
        (card.easiness_factor < 13/10 ∨ card.repetition_count < 0))) ∧
    ((∃ c', scheduleNextReview card grade now = .ok c') ↔
      (0 ≤ grade ∧ grade ≤ 5 ∧
        13/10 ≤ card.easiness_factor ∧ 0 ≤ card.repetition_count)) := by
  unfold scheduleNextReview
  split_ifs with h1 h2
  · refine ⟨⟨fun _ => h1, fun _ => rfl⟩, ⟨fun hc => ?_, fun hc => ?_⟩,
      ⟨fun hc => ?_, fun hc => ?_⟩⟩
    · simp at hc
    · rcases h1 with h | h
      · linarith [hc.1]
      · linarith [hc.2.1]
    · obtain ⟨c', hc'⟩ := hc
      simp at hc'
    · rcases h1 with h | h
      · linarith [hc.1]
      · linarith [hc.2.1]
  · push_neg at h1
    refine ⟨⟨fun hc => ?_, fun hc => ?_⟩, ⟨fun _ => ⟨h1.1, h1.2, h2⟩, fun _ => rfl⟩,
      ⟨fun hc => ?_, fun hc => ?_⟩⟩
    · simp at hc
    · rcases hc with h | h
      · linarith [h1.1]
      · linarith [h1.2]
    · obtain ⟨c', hc'⟩ := hc
      simp at hc'
    · rcases h2 with h | h
      · linarith [hc.2.2.1]
      · linarith [hc.2.2.2]
  · push_neg at h1 h2
    refine ⟨⟨fun hc => ?_, fun hc => ?_⟩, ⟨fun hc => ?_, fun hc => ?_⟩,
      ⟨fun _ => ⟨h1.1, h1.2, h2.1, h2.2⟩, fun _ => ⟨_, rfl⟩⟩⟩
    · simp at hc
    · rcases hc with h | h
      · linarith [h1.1]
      · linarith [h1.2]
    · simp at hc
    · rcases hc.2.2 with h | h
      · linarith [h2.1]
      · linarith [h2.2]

/-- C4, counterexample.  A card with `easiness_factor = 1 < 1.3`, submitted
with the out-of-range grade 7: the call fails with `InvalidGradeError`, not
`InvalidStateError`, although the card violates the state invariant on
entry. -/
theorem review_validation_cex :
    scheduleNextReview
        { id := 0, question := "q", answer := "a", easiness_factor := 1,
          repetition_count := 0, interval_days := 0, last_reviewed_at := none,
          next_review_at := 0 } 7 0 = .error .invalidGrade ∧
    (1 : ℚ) < 13/10 ∧
    ScheduleError.invalidGrade ≠ ScheduleError.invalidState := by
  refine ⟨?_, by norm_num, by decide⟩
  unfold scheduleNextReview
  rw [if_pos (by norm_num)]

/-- C4, witness: the spec's scenario 6 — grade 6 on a fresh card is rejected
with `InvalidGradeError`. -/
theorem review_validation_witness :
    scheduleNextReview (createCard 0 "q" "a" 0) 6 0 = .error .invalidGrade :=
  (review_validation (createCard 0 "q" "a" 0) 6 0).1.mpr (by norm_num)

/-- C5.  `selectDueCards` returns exactly the due subset
(`next_review_at ≤ now`), sorted ascending by `next_review_at` with ties
broken by `id`, truncated to `limit` when one is provided and unbounded
otherwise; and `isDue` is the predicate `next_review_at ≤ now`. -/
theorem selectDueCards_correct
    (cards : List ReviewCard) (now : ℤ) (limit : Option ℕ) (n : ℕ)
    (card : ReviewCard) :
    (selectDueCards cards now none).Perm
      (cards.filter fun c => isDue c now) ∧
    (selectDueCards cards now limit).Sorted cardLE ∧
    selectDueCards cards now (some n) = (selectDueCards cards now none).take n ∧
    (isDue card now = true ↔ card.next_review_at ≤ now) := by
  refine ⟨List.perm_insertionSort cardLE _, ?_, rfl, by simp [isDue]⟩
  unfold selectDueCards
  cases limit with
  | none => exact List.sorted_insertionSort cardLE _
  | some m =>
    exact List.Pairwise.sublist (List.take_sublist m _)
      (List.sorted_insertionSort cardLE _)

/-- C5, witness: three cards due yesterday / now / tomorrow — the due two
come back most-overdue first, the future one is excluded (spec scenario 5). -/
theorem selectDueCards_correct_witness :
    (selectDueCards
        [{ createCard 1 "y" "y" 0 with next_review_at := -86400 },
         { createCard 2 "t" "t" 0 with next_review_at := 86400 },
         { createCard 3 "n" "n" 0 with next_review_at := 0 }] 0 none).Perm
      ([{ createCard 1 "y" "y" 0 with next_review_at := -86400 },
        { createCard 2 "t" "t" 0 with next_review_at := 86400 },
        { createCard 3 "n" "n" 0 with next_review_at := 0 }].filter
          fun c => isDue c 0) :=
  (selectDueCards_correct _ 0 none 0 (createCard 0 "q" "a" 0)).1

/-- C9.  A newly created card carries the initial defaults
`easiness_factor = 2.5`, `repetition_count = 0`, `interval_days = 0`,
`next_review_at = now` (and no `last_reviewed_at`), hence is immediately
due. -/
theorem createCard_defaults (id : Nat) (question answer : String) (now : ℤ) :
    (createCard id question answer now).easiness_factor = 5/2 ∧
    (createCard id question answer now).repetition_count = 0 ∧
    (createCard id question answer now).interval_days = 0 ∧
    (createCard id question answer now).last_reviewed_at = none ∧
    (createCard id question answer now).next_review_at = now ∧
    isDue (createCard id question answer now) now = true := by
  refine ⟨rfl, rfl, rfl, rfl, rfl, ?_⟩
  simp [createCard, isDue]

/-- C9, witness: the defaults at a concrete creation. -/
theorem createCard_defaults_witness :
    (createCard 7 "Q" "A" 1234).easiness_factor = 5/2 ∧
    (createCard 7 "Q" "A" 1234).repetition_count = 0 ∧
    (createCard 7 "Q" "A" 1234).interval_days = 0 ∧
    (createCard 7 "Q" "A" 1234).last_reviewed_at = none ∧
    (createCard 7 "Q" "A" 1234).next_review_at = 1234 ∧
    isDue (createCard 7 "Q" "A" 1234) 1234 = true :=
  createCard_defaults 7 "Q" "A" 1234

/-- C10.  `generateFlashcards` returns at most 5 records; every record has
`difficulty = "medium"`, `is_auto_generated = true` and the given
`lecture_id`, and its question/answer are built from two consecutive
sentences of the content's split whose trimmed length exceeds 20. -/
theorem generateFlashcards_spec (content lectureId : String) :
    (generateFlashcards content lectureId).length ≤ 5 ∧
    (∀ s ∈ contentSentences content,
      s ∈ splitSentences content ∧ 20 < (jsTrim s).length) ∧
    (∀ fc ∈ generateFlashcards content lectureId,
      fc.difficulty = "medium" ∧ fc.is_auto_generated = true ∧
      fc.lecture_id = lectureId ∧
      ∃ i : ℕ, i + 1 < (contentSentences content).length ∧
        fc.question =
          flashcardQuestion (jsTrim ((contentSentences content).getD i "")) ∧
        fc.answer = jsTrim ((contentSentences content).getD (i + 1) "")) := by
  refine ⟨?_, ?_, ?_⟩
  · unfold generateFlashcards
    have hsub : List.Sublist
        ((List.range (min 10 (contentSentences content).length)).filter
          (fun i => i % 2 = 0))
        ((List.range 10).filter (fun i => i % 2 = 0)) :=
      List.Sublist.filter _ (List.range_sublist.mpr (min_le_left 10 _))
    calc (((List.range (min 10 (contentSentences content).length)).filter
            (fun i => i % 2 = 0)).filterMap _).length
        ≤ ((List.range (min 10 (contentSentences content).length)).filter
            (fun i => i % 2 = 0)).length := List.length_filterMap_le _ _
      _ ≤ ((List.range 10).filter (fun i => i % 2 = 0)).length := hsub.length_le
      _ = 5 := by rfl
  · intro s hs
    exact ⟨List.mem_of_mem_filter hs, by simpa using List.of_mem_filter hs⟩
  · intro fc hfc
    unfold generateFlashcards at hfc
    rw [List.mem_filterMap] at hfc
    obtain ⟨i, _, hfi⟩ := hfc
    by_cases hlt : i + 1 < (contentSentences content).length
    · rw [if_pos hlt] at hfi
      have hrec := Option.some.inj hfi
      subst hrec
      exact ⟨rfl, rfl, rfl, i, hlt, rfl, rfl⟩
    · rw [if_neg hlt] at hfi
      cases hfi

/-- C10, witness: the record count bound at a concrete content string. -/
theorem generateFlashcards_spec_witness :
    (generateFlashcards "A first sentence that is long enough. A second sentence that is long enough too." "lec").length ≤ 5 :=
  (generateFlashcards_spec
    "A first sentence that is long enough. A second sentence that is long enough too." "lec").1

end LectureLens
